import Mathlib

/-!
Shallow embedding of the appointment scheduling and reservation engine of
the massage-bot repository (src/bot.py), together with theorems settling
the specification claims about it.

Modelling conventions:
* Timestamps are natural numbers counting minutes.  The source stores
  timestamps as strings in the fixed-width format YYYY-MM-DD HH:MM:SS and
  compares them with SQLite string comparison, which on that format agrees
  with chronological order, so Nat order is a faithful model.  A calendar
  day is 1440 minutes; the date of an absolute time t is t / 1440 and its
  time-of-day is t % 1440.
* The appointments table (init_db, bot.py lines 126-144) becomes a list of
  Appointment records plus the AUTOINCREMENT counter nextId.  The table
  level constraint UNIQUE(appointment_time, master_id) is modelled inside
  insert_appointment: the INSERT fails with an integrity error whenever a
  row with the same (time, master) pair already exists, regardless of its
  status.
* Each SQL statement of the source is translated to the corresponding
  list operation; UPDATE ... WHERE id = ? becomes a map over the list that
  rewrites the rows whose id matches (id is the primary key).
-/

namespace MassageBot

/-- Appointment status, from the status column of init_db:
active, completed, cancelled. -/
inductive Status where
  | active
  | completed
  | cancelled
deriving DecidableEq, Repr

/-- A row of the appointments table (init_db, bot.py lines 126-144). -/
structure Appointment where
  id : Nat
  clientId : Nat
  serviceId : Nat
  masterId : Nat
  time : Nat
  status : Status
  createdAt : Nat
  updatedAt : Nat
  reminderSentDay : Bool
  reminderSentHour : Bool
  reminderSentAdmin : Bool
deriving DecidableEq, Repr

/-- The database state: the appointments table plus the AUTOINCREMENT
counter for the next primary key. -/
structure DBState where
  appointments : List Appointment
  nextId : Nat
deriving DecidableEq, Repr

/-- The empty database produced by init_db. -/
def initialState : DBState := ⟨[], 1⟩

/-- Number of rows at a given (appointment_time, master_id) pair with
status active: the COUNT(*) query of is_slot_available
(bot.py lines 280-287). -/
def activeSlotCount (db : DBState) (t m : Nat) : Nat :=
  db.appointments.countP
    (fun a => a.time == t && a.masterId == m && a.status == Status.active)

/-- Number of rows at a given (appointment_time, master_id) pair of any
status: the extent of the UNIQUE(appointment_time, master_id) constraint
of init_db (bot.py line 142). -/
def slotCount (db : DBState) (t m : Nat) : Nat :=
  db.appointments.countP (fun a => a.time == t && a.masterId == m)

/-- is_slot_available (bot.py lines 275-290): true iff the COUNT(*) of
active rows at exactly that (datetime, master) pair is zero. -/
def is_slot_available (db : DBState) (t m : Nat) : Bool :=
  activeSlotCount db t m == 0

/-- The while loop of get_available_times (bot.py lines 230-242): starting
at hour 10, add 90 minutes repeatedly while hour < 18 or exactly 18:00.
Times are returned as minutes of the day. -/
def get_available_times_go (h m : Nat) : List Nat :=
  if h < 18 ∨ (h = 18 ∧ m = 0) then
    (h * 60 + m) ::
      (if 60 ≤ m + 30 then get_available_times_go (h + 2) (m + 30 - 60)
       else get_available_times_go (h + 1) (m + 30))
  else []
termination_by 19 - h
decreasing_by all_goals omega

/-- get_available_times (bot.py lines 224-250): the generated times,
filtered to those not later than 17:30 (minute 1050). -/
def get_available_times : List Nat :=
  (get_available_times_go 10 0).filter (fun t => t ≤ 1050)

/-- get_available_slots (bot.py lines 292-313): for each candidate time of
day, when the queried date is today skip times not later than the current
time of day, then keep the time iff is_slot_available holds for the
absolute timestamp queryDate * 1440 + time. -/
def get_available_slots (db : DBState) (queryDate today nowMin masterId : Nat) :
    List Nat :=
  get_available_times.filter (fun tm =>
    (if queryDate = today then decide (nowMin < tm) else true) &&
    is_slot_available db (queryDate * 1440 + tm) masterId)

/-- Result of a createAppointment attempt.  created is the success path
returning the new row id; slotTaken is the message branch taken when the
availability pre-check fails (bot.py lines 1846-1851); integrityError is
an aiosqlite IntegrityError escaping the INSERT (bot.py lines 1864-1867),
which the source does not catch. -/
inductive CreateResult where
  | created (id : Nat)
  | slotTaken
  | integrityError
deriving DecidableEq, Repr

/-- The INSERT INTO appointments statement of create_appointment
(bot.py lines 1864-1867) together with the table level constraint
UNIQUE(appointment_time, master_id): if any row of any status already
occupies the (time, master) pair the INSERT raises an integrity error and
changes nothing; otherwise a fresh active row is appended. -/
def insert_appointment (db : DBState) (clientId serviceId masterId t now : Nat) :
    CreateResult × DBState :=
  if db.appointments.any (fun a => a.time == t && a.masterId == masterId) then
    (CreateResult.integrityError, db)
  else
    (CreateResult.created db.nextId,
      ⟨db.appointments ++
        [⟨db.nextId, clientId, serviceId, masterId, t, Status.active,
          now, now, false, false, false⟩],
        db.nextId + 1⟩)

/-- create_appointment (bot.py lines 1817-1871): re-check
is_slot_available immediately before the INSERT; when the check fails the
user gets the slot-taken message, otherwise the INSERT runs. -/
def create_appointment (db : DBState) (clientId serviceId masterId t now : Nat) :
    CreateResult × DBState :=
  if is_slot_available db t masterId then
    insert_appointment db clientId serviceId masterId t now
  else
    (CreateResult.slotTaken, db)

/-- Result of the client-side cancel_appointment handler. -/
inductive CancelResult where
  | ok
  | notFound
  | notOwner
deriving DecidableEq, Repr

/-- cancel_appointment (bot.py lines 1326-1372), the client cancellation:
look up the appointment WHERE id = ? AND status = active; if absent report
not found; if the row does not belong to the calling client refuse;
otherwise UPDATE the row to cancelled and stamp updated_at. -/
def cancel_appointment (db : DBState) (userClientId appointmentId now : Nat) :
    CancelResult × DBState :=
  match db.appointments.find?
      (fun a => a.id == appointmentId && a.status == Status.active) with
  | none => (CancelResult.notFound, db)
  | some a =>
    if a.clientId == userClientId then
      (CancelResult.ok,
        ⟨db.appointments.map (fun b =>
            if b.id == appointmentId then
              { b with status := Status.cancelled, updatedAt := now }
            else b),
          db.nextId⟩)
    else (CancelResult.notOwner, db)

/-- admin_complete_appointment (bot.py lines 2693-2710): an unconditional
UPDATE appointments SET status = completed, updated_at = now WHERE id = ?.
There is no status guard and no distinct result for terminal rows. -/
def admin_complete_appointment (db : DBState) (appointmentId now : Nat) : DBState :=
  ⟨db.appointments.map (fun a =>
      if a.id == appointmentId then
        { a with status := Status.completed, updatedAt := now }
      else a),
    db.nextId⟩

/-- admin_cancel_appointment (bot.py lines 2712-2727): an unconditional
UPDATE appointments SET status = cancelled, updated_at = now WHERE id = ?. -/
def admin_cancel_appointment (db : DBState) (appointmentId now : Nat) : DBState :=
  ⟨db.appointments.map (fun a =>
      if a.id == appointmentId then
        { a with status := Status.cancelled, updatedAt := now }
      else a),
    db.nextId⟩

/-- clear_history (bot.py lines 1529-1560): DELETE FROM appointments WHERE
client_id = ? AND status IN (completed, cancelled); returns the rowcount
of deleted rows together with the new state. -/
def clear_history (db : DBState) (clientId : Nat) : Nat × DBState :=
  (db.appointments.countP (fun a =>
      a.clientId == clientId &&
      (a.status == Status.completed || a.status == Status.cancelled)),
    ⟨db.appointments.filter (fun a =>
        !(a.clientId == clientId &&
          (a.status == Status.completed || a.status == Status.cancelled))),
      db.nextId⟩)

/-- The selection predicate of the auto-completion query of
schedule_reminders (bot.py lines 977-983): active rows whose time is
strictly before the sweep's captured wall-clock time. -/
def past_due (now : Nat) (a : Appointment) : Bool :=
  a.status == Status.active && a.time < now

/-- Effect of the auto-completion UPDATE (bot.py lines 988-993) on one
row. -/
def complete_if_past (now : Nat) (a : Appointment) : Appointment :=
  if past_due now a then { a with status := Status.completed, updatedAt := now }
  else a

/-- The auto-completion phase of one sweep cycle of schedule_reminders
(bot.py lines 975-997): every active past-due row is set to completed with
updated_at stamped. -/
def auto_complete (db : DBState) (now : Nat) : DBState :=
  ⟨db.appointments.map (complete_if_past now), db.nextId⟩

/-- day_start of the day-before reminder window (bot.py lines 999-1002):
midnight of the day containing now plus one day. -/
def day_window_start (now : Nat) : Nat := ((now + 1440) / 1440) * 1440

/-- Membership in the BETWEEN day_start AND day_end range of the
day-before reminder query (bot.py line 1010). -/
def in_day_window (now : Nat) (a : Appointment) : Bool :=
  day_window_start now ≤ a.time && a.time ≤ day_window_start now + 1439

/-- The selection predicate of the day-before reminder query
(bot.py lines 1004-1014): in the window, active, flag unset. -/
def day_pending (now : Nat) (a : Appointment) : Bool :=
  in_day_window now a && a.status == Status.active && a.reminderSentDay == false

/-- Effect of the flag UPDATE of the day-before loop
(bot.py lines 1033-1037) on one row. -/
def set_day_flag (now : Nat) (a : Appointment) : Appointment :=
  if day_pending now a then { a with reminderSentDay := true } else a

/-- The day-before reminder phase of one sweep cycle
(bot.py lines 999-1037): the selected rows each get a reminder sent and
their flag set; returns the ids reminded and the new state. -/
def day_reminder_step (db : DBState) (now : Nat) : List Nat × DBState :=
  ((db.appointments.filter (day_pending now)).map (fun a => a.id),
    ⟨db.appointments.map (set_day_flag now), db.nextId⟩)

/-- hour_start of the hour-before reminder window
(bot.py lines 1039-1042): now plus one hour, floored to the hour. -/
def hour_window_start (now : Nat) : Nat := ((now + 60) / 60) * 60

/-- The selection predicate of the hour-before reminder query
(bot.py lines 1044-1054). -/
def hour_pending (now : Nat) (a : Appointment) : Bool :=
  (hour_window_start now ≤ a.time && a.time ≤ hour_window_start now + 59) &&
  a.status == Status.active && a.reminderSentHour == false

/-- Effect of the flag UPDATE of the hour-before loop
(bot.py lines 1073-1077) on one row. -/
def set_hour_flag (now : Nat) (a : Appointment) : Appointment :=
  if hour_pending now a then { a with reminderSentHour := true } else a

/-- The hour-before reminder phase of one sweep cycle
(bot.py lines 1039-1077). -/
def hour_reminder_step (db : DBState) (now : Nat) : List Nat × DBState :=
  ((db.appointments.filter (hour_pending now)).map (fun a => a.id),
    ⟨db.appointments.map (set_hour_flag now), db.nextId⟩)

/-- The selection predicate of the admin ten-minute reminder query
(bot.py lines 1079-1094): at minute granularity the window collapses to
the single minute now + 10. -/
def admin_pending (now : Nat) (a : Appointment) : Bool :=
  a.time == now + 10 && a.status == Status.active && a.reminderSentAdmin == false

/-- Effect of the flag UPDATE of the admin reminder loop
(bot.py lines 1113-1117) on one row. -/
def set_admin_flag (now : Nat) (a : Appointment) : Appointment :=
  if admin_pending now a then { a with reminderSentAdmin := true } else a

/-- The admin ten-minute reminder phase of one sweep cycle
(bot.py lines 1079-1117). -/
def admin_reminder_step (db : DBState) (now : Nat) : List Nat × DBState :=
  ((db.appointments.filter (admin_pending now)).map (fun a => a.id),
    ⟨db.appointments.map (set_admin_flag now), db.nextId⟩)

/-- One full cycle of the schedule_reminders loop
(bot.py lines 969-1119): auto-completion, then the day-before, hour-before
and admin reminder phases, all parameterised by the wall-clock time
captured at the start of the cycle. -/
def schedule_reminders_cycle (db : DBState) (now : Nat) : DBState :=
  (admin_reminder_step
    (hour_reminder_step
      (day_reminder_step (auto_complete db now) now).2 now).2 now).2

/-- Discriminator for the success case of a createAppointment attempt. -/
def CreateResult.isCreated : CreateResult → Bool
  | CreateResult.created _ => true
  | _ => false

/-- One atomic storage-level step of the engine.  The raceInsert step is
the INSERT half of a create_appointment call whose availability pre-check
ran against an earlier state: together with the create step it covers
every interleaving of concurrent booking attempts, since the uniqueness
constraint is enforced atomically with the INSERT itself. -/
inductive Step : DBState → DBState → Prop where
  | create (db : DBState) (c s m t now : Nat) :
      Step db (create_appointment db c s m t now).2
  | raceInsert (db : DBState) (c s m t now : Nat) :
      Step db (insert_appointment db c s m t now).2
  | clientCancel (db : DBState) (u aid now : Nat) :
      Step db (cancel_appointment db u aid now).2
  | adminComplete (db : DBState) (aid now : Nat) :
      Step db (admin_complete_appointment db aid now)
  | adminCancel (db : DBState) (aid now : Nat) :
      Step db (admin_cancel_appointment db aid now)
  | sweep (db : DBState) (now : Nat) :
      Step db (schedule_reminders_cycle db now)
  | clearHist (db : DBState) (c : Nat) :
      Step db (clear_history db c).2

/-- Database states reachable from the freshly initialised database by
engine operations. -/
inductive Reachable : DBState → Prop where
  | init : Reachable initialState
  | step {db db' : DBState} : Reachable db → Step db db' → Reachable db'

theorem countP_map_eq_of_agree {α : Type} (p : α → Bool) (f : α → α) (l : List α)
    (h : ∀ a, p (f a) = p a) : (l.map f).countP p = l.countP p := by
  induction l with
  | nil => rfl
  | cons a l ih => simp [List.countP_cons, h a, ih]

theorem countP_filter_le {α : Type} (p q : α → Bool) (l : List α) :
    (l.filter q).countP p ≤ l.countP p := by
  induction l with
  | nil => simp
  | cons a l ih =>
    rw [List.filter_cons]
    split
    · rw [List.countP_cons, List.countP_cons]; omega
    · rw [List.countP_cons]; split <;> omega

theorem activeSlotCount_le_slotCount (db : DBState) (t m : Nat) :
    activeSlotCount db t m ≤ slotCount db t m := by
  apply List.countP_mono_left
  intro a _ h
  simp only [Bool.and_eq_true] at h ⊢
  exact h.1

theorem slot_vacant_iff (db : DBState) (t m : Nat) :
    (db.appointments.any (fun a => a.time == t && a.masterId == m) = false)
      ↔ slotCount db t m = 0 := by
  rw [slotCount, List.countP_eq_zero, List.any_eq_false]

theorem slotCount_insert_le (db : DBState) (c s m0 t0 now t m : Nat)
    (h : slotCount db t m ≤ 1) :
    slotCount (insert_appointment db c s m0 t0 now).2 t m ≤ 1 := by
  unfold insert_appointment
  split
  · exact h
  · rename_i hvac
    simp only [Bool.not_eq_true] at hvac
    rw [slot_vacant_iff] at hvac
    by_cases heq : t0 = t ∧ m0 = m
    · obtain ⟨rfl, rfl⟩ := heq
      unfold slotCount at hvac ⊢
      simp [List.countP_append, List.countP_cons, hvac]
    · have hne : ((t0 == t) && (m0 == m)) = false := by
        rcases Decidable.em (t0 = t) with h1 | h1 <;>
          rcases Decidable.em (m0 = m) with h2 | h2 <;> simp_all
      unfold slotCount at h ⊢
      simp only [List.countP_append, List.countP_cons, List.countP_nil, hne,
        if_false]
      simpa using h

theorem slotCount_create_le (db : DBState) (c s m0 t0 now t m : Nat)
    (h : slotCount db t m ≤ 1) :
    slotCount (create_appointment db c s m0 t0 now).2 t m ≤ 1 := by
  unfold create_appointment
  split
  · exact slotCount_insert_le db c s m0 t0 now t m h
  · exact h

theorem slotCount_cancel (db : DBState) (u aid now t m : Nat) :
    slotCount (cancel_appointment db u aid now).2 t m = slotCount db t m := by
  unfold cancel_appointment
  cases hfind : db.appointments.find?
      (fun a => a.id == aid && a.status == Status.active) with
  | none => rfl
  | some a =>
    simp only
    split
    · exact countP_map_eq_of_agree _ _ _ (fun b => by split <;> rfl)
    · rfl

theorem slotCount_admin_complete (db : DBState) (aid now t m : Nat) :
    slotCount (admin_complete_appointment db aid now) t m = slotCount db t m :=
  countP_map_eq_of_agree _ _ _ (fun b => by split <;> rfl)

theorem slotCount_admin_cancel (db : DBState) (aid now t m : Nat) :
    slotCount (admin_cancel_appointment db aid now) t m = slotCount db t m :=
  countP_map_eq_of_agree _ _ _ (fun b => by split <;> rfl)

theorem slotCount_sweep (db : DBState) (now t m : Nat) :
    slotCount (schedule_reminders_cycle db now) t m = slotCount db t m := by
  unfold schedule_reminders_cycle admin_reminder_step hour_reminder_step
    day_reminder_step auto_complete slotCount
  simp only
  rw [countP_map_eq_of_agree _ _ _ (fun b => by unfold set_admin_flag; split <;> rfl),
    countP_map_eq_of_agree _ _ _ (fun b => by unfold set_hour_flag; split <;> rfl),
    countP_map_eq_of_agree _ _ _ (fun b => by unfold set_day_flag; split <;> rfl),
    countP_map_eq_of_agree _ _ _ (fun b => by unfold complete_if_past; split <;> rfl)]

theorem slotCount_clear_le (db : DBState) (c t m : Nat)
    (h : slotCount db t m ≤ 1) : slotCount (clear_history db c).2 t m ≤ 1 :=
  le_trans (countP_filter_le _ _ _) h

/-- The UNIQUE(appointment_time, master_id) constraint as a reachability
invariant: every reachable state has at most one row, of any status, per
(time, master) pair. -/
theorem slotCount_le_one_of_reachable {db : DBState} (h : Reachable db)
    (t m : Nat) : slotCount db t m ≤ 1 := by
  induction h with
  | init => simp [slotCount, initialState]
  | step _ hs ih =>
    cases hs with
    | create c s m0 t0 now => exact slotCount_create_le _ c s m0 t0 now t m ih
    | raceInsert c s m0 t0 now => exact slotCount_insert_le _ c s m0 t0 now t m ih
    | clientCancel u aid now => rw [slotCount_cancel]; exact ih
    | adminComplete aid now => rw [slotCount_admin_complete]; exact ih
    | adminCancel aid now => rw [slotCount_admin_cancel]; exact ih
    | sweep now => rw [slotCount_sweep]; exact ih
    | clearHist c => exact slotCount_clear_le _ c t m ih

/-- N concurrent create_appointment calls on the same (masterId, t) slot
in the fully adversarial interleaving: every caller's availability
pre-check ran before any INSERT, so each call proceeds to its INSERT and
the storage constraint alone decides the outcome.  Each request carries
that caller's (clientId, serviceId). -/
def race_inserts (db : DBState) (reqs : List (Nat × Nat)) (masterId t now : Nat) :
    List CreateResult × DBState :=
  match reqs with
  | [] => ([], db)
  | (c, s) :: rest =>
    let r := insert_appointment db c s masterId t now
    let rs := race_inserts r.2 rest masterId t now
    (r.1 :: rs.1, rs.2)

theorem slot_occupied_any (db : DBState) (t m : Nat) (h : 1 ≤ slotCount db t m) :
    db.appointments.any (fun a => a.time == t && a.masterId == m) = true := by
  rw [List.any_eq_true]
  rw [slotCount] at h
  exact List.countP_pos_iff.mp h

theorem insert_of_occupied (db : DBState) (c s m t now : Nat)
    (h : 1 ≤ slotCount db t m) :
    insert_appointment db c s m t now = (CreateResult.integrityError, db) := by
  unfold insert_appointment
  simp [slot_occupied_any db t m h]

theorem insert_of_vacant (db : DBState) (c s m t now : Nat)
    (h : slotCount db t m = 0) :
    insert_appointment db c s m t now =
      (CreateResult.created db.nextId,
        ⟨db.appointments ++
          [⟨db.nextId, c, s, m, t, Status.active, now, now, false, false, false⟩],
          db.nextId + 1⟩) := by
  unfold insert_appointment
  rw [← slot_vacant_iff] at h
  simp [h]

theorem counts_after_insert (db : DBState) (c s m t now : Nat)
    (h : slotCount db t m = 0) :
    slotCount (insert_appointment db c s m t now).2 t m = 1 ∧
    activeSlotCount (insert_appointment db c s m t now).2 t m = 1 := by
  have hact : activeSlotCount db t m = 0 :=
    Nat.le_zero.mp (h ▸ activeSlotCount_le_slotCount db t m)
  rw [insert_of_vacant db c s m t now h]
  unfold slotCount at h
  unfold activeSlotCount at hact
  unfold slotCount activeSlotCount
  simp [List.countP_append, List.countP_cons, h, hact]

theorem race_inserts_occupied (db : DBState) (reqs : List (Nat × Nat))
    (m t now : Nat) (h : 1 ≤ slotCount db t m) :
    race_inserts db reqs m t now
      = (reqs.map (fun _ => CreateResult.integrityError), db) := by
  induction reqs with
  | nil => rfl
  | cons r rest ih =>
    obtain ⟨c, s⟩ := r
    simp [race_inserts, insert_of_occupied db c s m t now h, ih]

theorem race_inserts_vacant (db : DBState) (c s : Nat) (rest : List (Nat × Nat))
    (m t now : Nat) (h : slotCount db t m = 0) :
    (race_inserts db ((c, s) :: rest) m t now).1
        = CreateResult.created db.nextId
            :: rest.map (fun _ => CreateResult.integrityError) ∧
    activeSlotCount (race_inserts db ((c, s) :: rest) m t now).2 t m = 1 := by
  have hcount := counts_after_insert db c s m t now h
  have hocc : 1 ≤ slotCount (insert_appointment db c s m t now).2 t m := by
    omega
  constructor
  · show ((insert_appointment db c s m t now).1 ::
        (race_inserts (insert_appointment db c s m t now).2 rest m t now).1) = _
    rw [race_inserts_occupied _ rest m t now hocc,
      insert_of_vacant db c s m t now h]
  · show activeSlotCount
        (race_inserts (insert_appointment db c s m t now).2 rest m t now).2 t m = 1
    rw [race_inserts_occupied _ rest m t now hocc]
    exact hcount.2

theorem reachable_race_inserts (db : DBState) (reqs : List (Nat × Nat))
    (m t now : Nat) (h : Reachable db) :
    Reachable (race_inserts db reqs m t now).2 := by
  induction reqs generalizing db with
  | nil => exact h
  | cons r rest ih =>
    obtain ⟨c, s⟩ := r
    exact ih _ (Reachable.step h (Step.raceInsert db c s m t now))

/-- C1 (amended): in every reachable database state there is at most one
active appointment per (time, master) pair, and this is preserved by any
number of concurrent create_appointment calls racing on one slot; among
such racing calls at most one creates an active row, and exactly one
succeeds when the slot holds no row of any status beforehand.  (The
as-stated clause that exactly one of the racers always succeeds fails
when a cancelled or completed row still occupies the slot; see the
counterexample.) -/
theorem C1_no_double_booking (db : DBState) (hdb : Reachable db)
    (t m now : Nat) (reqs : List (Nat × Nat)) :
    activeSlotCount db t m ≤ 1 ∧
    activeSlotCount (race_inserts db reqs m t now).2 t m ≤ 1 ∧
    (slotCount db t m = 0 → ∀ c s rest, reqs = (c, s) :: rest →
      (race_inserts db reqs m t now).1.countP CreateResult.isCreated = 1 ∧
      activeSlotCount (race_inserts db reqs m t now).2 t m = 1) := by
  refine ⟨?_, ?_, ?_⟩
  · exact le_trans (activeSlotCount_le_slotCount db t m)
      (slotCount_le_one_of_reachable hdb t m)
  · exact le_trans (activeSlotCount_le_slotCount _ t m)
      (slotCount_le_one_of_reachable (reachable_race_inserts db reqs m t now hdb) t m)
  · rintro h c s rest rfl
    have hr := race_inserts_vacant db c s rest m t now h
    refine ⟨?_, hr.2⟩
    rw [hr.1]
    simp [List.countP_cons, List.countP_map, CreateResult.isCreated, Function.comp]

/-- Witness for C1: the theorem applied to the freshly initialised
database and two concurrent booking attempts on slot 1000 of master 1. -/
theorem C1_no_double_booking_witness :
    activeSlotCount initialState 1000 1 ≤ 1 ∧
    activeSlotCount (race_inserts initialState [(7, 1), (8, 1)] 1 1000 0).2 1000 1 ≤ 1 ∧
    (slotCount initialState 1000 1 = 0 → ∀ c s rest, [(7, 1), (8, 1)] = (c, s) :: rest →
      (race_inserts initialState [(7, 1), (8, 1)] 1 1000 0).1.countP
        CreateResult.isCreated = 1 ∧
      activeSlotCount (race_inserts initialState [(7, 1), (8, 1)] 1 1000 0).2 1000 1 = 1) :=
  C1_no_double_booking initialState Reachable.init 1000 1 0 [(7, 1), (8, 1)]

/-- A reachable state in which slot 1000 of master 1 holds one cancelled
row: client 7 books the slot and then cancels the booking. -/
def cancelledSlotState : DBState :=
  (cancel_appointment (create_appointment initialState 7 1 1 1000 0).2 7 1 5).2

theorem reachable_cancelledSlotState : Reachable cancelledSlotState :=
  Reachable.step
    (Reachable.step Reachable.init (Step.create initialState 7 1 1 1000 0))
    (Step.clientCancel (create_appointment initialState 7 1 1 1000 0).2 7 1 5)

/-- C1 counterexample: in the reachable state where slot 1000 of master 1
holds a cancelled row, the slot passes the availability check, yet of two
concurrent create attempts targeting it zero (not exactly one) create an
active row: both INSERTs hit the status-blind uniqueness constraint. -/
theorem C1_counterexample :
    Reachable cancelledSlotState ∧
    is_slot_available cancelledSlotState 1000 1 = true ∧
    (race_inserts cancelledSlotState [(8, 1), (9, 1)] 1 1000 6).1.countP
      CreateResult.isCreated = 0 ∧
    activeSlotCount (race_inserts cancelledSlotState [(8, 1), (9, 1)] 1 1000 6).2
      1000 1 = 0 :=
  ⟨reachable_cancelledSlotState, by decide, by decide, by decide⟩

/-- C2 counterexample: two concurrent create attempts on the free slot
1000 of master 1, both of whose availability pre-checks run before either
INSERT.  The loser's INSERT violates the uniqueness constraint, and
create_appointment has no handler around the INSERT: the caller receives
the uncaught integrity error, not the SlotConflict result. -/
theorem C2_counterexample :
    is_slot_available initialState 1000 1 = true ∧
    (insert_appointment initialState 7 1 1 1000 0).1 = CreateResult.created 1 ∧
    (insert_appointment (insert_appointment initialState 7 1 1 1000 0).2
        8 1 1 1000 0).1 = CreateResult.integrityError ∧
    CreateResult.integrityError ≠ CreateResult.slotTaken := by
  decide

/-- C2 (amended): when a slot is free of rows of any status and two
concurrent create attempts both pass the availability pre-check before
either INSERT runs, the first attempt returns the new appointment id and
the second hits the storage-level uniqueness violation, which is not
caught or translated: it surfaces as an integrity error rather than a
SlotConflict result.  Exactly one active appointment results. -/
theorem C2_race_not_translated (db : DBState) (t m c1 s1 c2 s2 now : Nat)
    (hfree : slotCount db t m = 0) :
    is_slot_available db t m = true ∧
    (insert_appointment db c1 s1 m t now).1 = CreateResult.created db.nextId ∧
    (insert_appointment (insert_appointment db c1 s1 m t now).2 c2 s2 m t now).1
      = CreateResult.integrityError ∧
    activeSlotCount
      (insert_appointment (insert_appointment db c1 s1 m t now).2 c2 s2 m t now).2
      t m = 1 := by
  have hact : activeSlotCount db t m = 0 :=
    Nat.le_zero.mp (hfree ▸ activeSlotCount_le_slotCount db t m)
  have h1 := insert_of_vacant db c1 s1 m t now hfree
  have hcounts := counts_after_insert db c1 s1 m t now hfree
  have h2 := insert_of_occupied (insert_appointment db c1 s1 m t now).2 c2 s2
    m t now (by omega)
  refine ⟨by simp [is_slot_available, hact], by rw [h1], by rw [h2], ?_⟩
  rw [h2]
  exact hcounts.2

/-- Witness for C2 (amended) at the freshly initialised database, slot
1000 of master 1, clients 7 and 8 racing. -/
theorem C2_race_not_translated_witness :
    is_slot_available initialState 1000 1 = true ∧
    (insert_appointment initialState 7 1 1 1000 0).1
      = CreateResult.created initialState.nextId ∧
    (insert_appointment (insert_appointment initialState 7 1 1 1000 0).2
        8 1 1 1000 0).1 = CreateResult.integrityError ∧
    activeSlotCount
      (insert_appointment (insert_appointment initialState 7 1 1 1000 0).2
        8 1 1 1000 0).2 1000 1 = 1 :=
  C2_race_not_translated initialState 1000 1 7 1 8 1 0 (by decide)

theorem appointment_eq_of_id_eq {l : List Appointment}
    (hnd : (l.map (fun x => x.id)).Nodup) {a b : Appointment}
    (ha : a ∈ l) (hb : b ∈ l) (hid : a.id = b.id) : a = b := by
  induction l with
  | nil => cases ha
  | cons c l ih =>
    rw [List.map_cons, List.nodup_cons] at hnd
    rcases List.mem_cons.mp ha with rfl | ha' <;>
      rcases List.mem_cons.mp hb with rfl | hb'
    · rfl
    · exact absurd (hid ▸ List.mem_map_of_mem (fun x => x.id) hb') hnd.1
    · exact absurd (hid ▸ List.mem_map_of_mem (fun x => x.id) ha') hnd.1
    · exact ih hnd.2 ha' hb'

theorem status_beq_active_eq_false {a : Appointment}
    (h : a.status ≠ Status.active) : (a.status == Status.active) = false := by
  simp [h]

/-- C3 (amended): terminal statuses are absorbing for the client
cancellation handler and for the reminder sweep — a completed or
cancelled appointment is left with its status and updated_at untouched by
cancel_appointment and by a schedule_reminders cycle.  The admin
handlers, by contrast, update unconditionally and can change a terminal
status; see the counterexample. -/
theorem C3_terminal_absorbing (db : DBState) (uid aid now i : Nat)
    (a : Appointment) (hnd : (db.appointments.map (fun x => x.id)).Nodup)
    (hget : db.appointments[i]? = some a) (hterm : a.status ≠ Status.active) :
    (cancel_appointment db uid aid now).2.appointments[i]? = some a ∧
    ∃ b, (schedule_reminders_cycle db now).appointments[i]? = some b ∧
      b.status = a.status ∧ b.updatedAt = a.updatedAt := by
  have hs := status_beq_active_eq_false hterm
  constructor
  · unfold cancel_appointment
    cases hfind : db.appointments.find?
        (fun x => x.id == aid && x.status == Status.active) with
    | none => exact hget
    | some a0 =>
      have hp := List.find?_some hfind
      simp only [Bool.and_eq_true, beq_iff_eq] at hp
      simp only
      split
      · have hane : a.id ≠ aid := by
          intro hida
          have : a = a0 := appointment_eq_of_id_eq hnd (List.getElem?_mem hget)
            (List.mem_of_find?_eq_some hfind) (by rw [hida, hp.1])
          exact hterm (this ▸ hp.2)
        show (List.map _ db.appointments)[i]? = some a
        rw [List.getElem?_map, hget, Option.map_some']
        simp [hane]
      · exact hget
  · refine ⟨a, ?_, rfl, rfl⟩
    have h1 : complete_if_past now a = a := by
      unfold complete_if_past past_due
      simp [hs]
    have h2 : set_day_flag now a = a := by
      unfold set_day_flag day_pending
      simp [hs]
    have h3 : set_hour_flag now a = a := by
      unfold set_hour_flag hour_pending
      simp [hs]
    have h4 : set_admin_flag now a = a := by
      unfold set_admin_flag admin_pending
      simp [hs]
    unfold schedule_reminders_cycle admin_reminder_step hour_reminder_step
      day_reminder_step auto_complete
    simp only [List.getElem?_map, hget, Option.map_some', h1, h2, h3, h4]

/-- Witness for C3 (amended): the cancelled row of cancelledSlotState is
untouched by a client cancellation attempt and by a sweep cycle. -/
theorem C3_terminal_absorbing_witness :
    (cancel_appointment cancelledSlotState 9 1 50).2.appointments[0]? =
      some ⟨1, 7, 1, 1, 1000, Status.cancelled, 0, 5, false, false, false⟩ ∧
    ∃ b, (schedule_reminders_cycle cancelledSlotState 50).appointments[0]? = some b ∧
      b.status = Appointment.status
        ⟨1, 7, 1, 1, 1000, Status.cancelled, 0, 5, false, false, false⟩ ∧
      b.updatedAt = Appointment.updatedAt
        ⟨1, 7, 1, 1, 1000, Status.cancelled, 0, 5, false, false, false⟩ :=
  C3_terminal_absorbing cancelledSlotState 9 1 50 0
    ⟨1, 7, 1, 1, 1000, Status.cancelled, 0, 5, false, false, false⟩
    (by decide) (by decide) (by decide)

/-- C3 counterexample: the admin completion handler runs an unconditional
UPDATE, so it turns the cancelled appointment of a reachable state into a
completed one — a transition out of a terminal state. -/
theorem C3_counterexample :
    Reachable cancelledSlotState ∧
    cancelledSlotState.appointments.map (fun a => a.status) = [Status.cancelled] ∧
    (admin_complete_appointment cancelledSlotState 1 9).appointments.map
      (fun a => a.status) = [Status.completed] :=
  ⟨reachable_cancelledSlotState, by decide, by decide⟩

/-- C4 counterexample: completing appointment 1 twice (at times 10 and
then 20) reports no AlreadyTerminal error — the handler has no such
result — and does not leave the row unchanged: the second unconditional
UPDATE restamps updated_at from 10 to 20. -/
theorem C4_counterexample :
    (admin_complete_appointment
        (create_appointment initialState 7 1 1 1000 0).2 1 10).appointments.map
      (fun a => a.updatedAt) = [10] ∧
    (admin_complete_appointment (admin_complete_appointment
        (create_appointment initialState 7 1 1 1000 0).2 1 10) 1 20).appointments.map
      (fun a => a.updatedAt) = [20] ∧
    admin_complete_appointment (admin_complete_appointment
        (create_appointment initialState 7 1 1 1000 0).2 1 10) 1 20
      ≠ admin_complete_appointment
        (create_appointment initialState 7 1 1 1000 0).2 1 10 := by
  decide

/-- C4 (amended): admin completion is idempotent at the status level —
after the first call the target row is completed, and a second call keeps
it completed — but the source returns no AlreadyTerminal result and the
second call runs the same unconditional UPDATE, restamping updated_at. -/
theorem C4_complete_twice (db : DBState) (aid n1 n2 i : Nat) (a : Appointment)
    (hget : db.appointments[i]? = some a) (hid : a.id = aid) :
    ∃ b1 b2,
      (admin_complete_appointment db aid n1).appointments[i]? = some b1 ∧
      (admin_complete_appointment (admin_complete_appointment db aid n1) aid n2).appointments[i]? = some b2 ∧
      b1.status = Status.completed ∧ b2.status = Status.completed ∧
      b1.updatedAt = n1 ∧ b2.updatedAt = n2 := by
  subst hid
  refine ⟨{ a with status := Status.completed, updatedAt := n1 },
    { a with status := Status.completed, updatedAt := n2 },
    ?_, ?_, rfl, rfl, rfl, rfl⟩
  · unfold admin_complete_appointment
    simp [List.getElem?_map, hget]
  · unfold admin_complete_appointment
    simp [List.getElem?_map, hget]

/-- Witness for C4 (amended): the booking of cancelledSlotState's history
replayed on a fresh database, completed twice at times 10 and 20. -/
theorem C4_complete_twice_witness :
    ∃ b1 b2,
      (admin_complete_appointment
        (create_appointment initialState 7 1 1 1000 0).2 1 10).appointments[0]?
          = some b1 ∧
      (admin_complete_appointment (admin_complete_appointment
        (create_appointment initialState 7 1 1 1000 0).2 1 10) 1 20).appointments[0]?
          = some b2 ∧
      b1.status = Status.completed ∧ b2.status = Status.completed ∧
      b1.updatedAt = 10 ∧ b2.updatedAt = 20 :=
  C4_complete_twice (create_appointment initialState 7 1 1 1000 0).2 1 10 20 0
    ⟨1, 7, 1, 1, 1000, Status.active, 0, 0, false, false, false⟩
    (by decide) (by decide)

/-- C5: get_available_slots applies the past-time filter exactly when the
queried date is today: on today's date no returned time of day is less
than or equal to the current time of day, and on any other date the
candidate list is filtered by slot availability alone, with no wall-clock
filtering. -/
theorem C5_same_day_past_filter (db : DBState)
    (queryDate today nowMin masterId tm : Nat) :
    (queryDate = today →
      tm ∈ get_available_slots db queryDate today nowMin masterId →
      nowMin < tm) ∧
    (queryDate ≠ today →
      get_available_slots db queryDate today nowMin masterId
        = get_available_times.filter
            (fun u => is_slot_available db (queryDate * 1440 + u) masterId)) := by
  constructor
  · rintro rfl hmem
    unfold get_available_slots at hmem
    have h := (List.mem_filter.mp hmem).2
    simp at h
    exact h.1
  · intro hne
    unfold get_available_slots
    apply List.filter_congr
    intro u _
    simp [hne]

/-- Witness for C5 at the empty database: queried date 0, today 0,
current minute 700, master 1, candidate time 690. -/
theorem C5_same_day_past_filter_witness :
    ((0 : Nat) = 0 → (690 : Nat) ∈ get_available_slots initialState 0 0 700 1 →
      (700 : Nat) < 690) ∧
    ((0 : Nat) ≠ 0 → get_available_slots initialState 0 0 700 1
      = get_available_times.filter
          (fun u => is_slot_available initialState (0 * 1440 + u) 1)) :=
  C5_same_day_past_filter initialState 0 0 700 1 690

theorem complete_if_past_fields (now : Nat) (a : Appointment) :
    (complete_if_past now a).id = a.id ∧ (complete_if_past now a).time = a.time ∧
    (complete_if_past now a).clientId = a.clientId ∧
    (complete_if_past now a).masterId = a.masterId := by
  unfold complete_if_past
  split <;> simp

theorem set_day_flag_fields (now : Nat) (a : Appointment) :
    (set_day_flag now a).id = a.id ∧ (set_day_flag now a).time = a.time ∧
    (set_day_flag now a).clientId = a.clientId ∧
    (set_day_flag now a).masterId = a.masterId ∧
    (set_day_flag now a).status = a.status ∧
    (set_day_flag now a).updatedAt = a.updatedAt := by
  unfold set_day_flag
  split <;> simp

theorem set_hour_flag_fields (now : Nat) (a : Appointment) :
    (set_hour_flag now a).id = a.id ∧ (set_hour_flag now a).time = a.time ∧
    (set_hour_flag now a).clientId = a.clientId ∧
    (set_hour_flag now a).masterId = a.masterId ∧
    (set_hour_flag now a).status = a.status ∧
    (set_hour_flag now a).updatedAt = a.updatedAt := by
  unfold set_hour_flag
  split <;> simp

theorem set_admin_flag_fields (now : Nat) (a : Appointment) :
    (set_admin_flag now a).id = a.id ∧ (set_admin_flag now a).time = a.time ∧
    (set_admin_flag now a).clientId = a.clientId ∧
    (set_admin_flag now a).masterId = a.masterId ∧
    (set_admin_flag now a).status = a.status ∧
    (set_admin_flag now a).updatedAt = a.updatedAt := by
  unfold set_admin_flag
  split <;> simp

theorem sweep_row (db : DBState) (now i : Nat) (a : Appointment)
    (hget : db.appointments[i]? = some a) :
    (schedule_reminders_cycle db now).appointments[i]?
      = some (set_admin_flag now (set_hour_flag now (set_day_flag now
          (complete_if_past now a)))) := by
  unfold schedule_reminders_cycle admin_reminder_step hour_reminder_step
    day_reminder_step auto_complete
  simp [List.getElem?_map, hget]

/-- C6: one sweep cycle evaluated at wall-clock time now completes
exactly the active appointments scheduled strictly before now: each such
row ends the cycle with status completed and updated_at stamped to now,
and every row that is not an active past-due one keeps its status and
updated_at; identity fields are never touched. -/
theorem C6_sweep_autocomplete (db : DBState) (now i : Nat) (a : Appointment)
    (hget : db.appointments[i]? = some a) :
    ∃ b, (schedule_reminders_cycle db now).appointments[i]? = some b ∧
      b.id = a.id ∧ b.time = a.time ∧ b.clientId = a.clientId ∧
      b.masterId = a.masterId ∧
      (a.status = Status.active → a.time < now →
        b.status = Status.completed ∧ b.updatedAt = now) ∧
      (past_due now a = false → b.status = a.status ∧ b.updatedAt = a.updatedAt) := by
  refine ⟨_, sweep_row db now i a hget, ?_, ?_, ?_, ?_, ?_, ?_⟩
  · rw [(set_admin_flag_fields now _).1, (set_hour_flag_fields now _).1,
      (set_day_flag_fields now _).1, (complete_if_past_fields now a).1]
  · rw [(set_admin_flag_fields now _).2.1, (set_hour_flag_fields now _).2.1,
      (set_day_flag_fields now _).2.1, (complete_if_past_fields now a).2.1]
  · rw [(set_admin_flag_fields now _).2.2.1, (set_hour_flag_fields now _).2.2.1,
      (set_day_flag_fields now _).2.2.1, (complete_if_past_fields now a).2.2.1]
  · rw [(set_admin_flag_fields now _).2.2.2.1, (set_hour_flag_fields now _).2.2.2.1,
      (set_day_flag_fields now _).2.2.2.1, (complete_if_past_fields now a).2.2.2]
  · intro hact htime
    have hpd : past_due now a = true := by
      unfold past_due
      simp [hact, htime]
    have hcp : complete_if_past now a
        = { a with status := Status.completed, updatedAt := now } := by
      unfold complete_if_past
      rw [if_pos hpd]
    constructor
    · rw [(set_admin_flag_fields now _).2.2.2.2.1,
        (set_hour_flag_fields now _).2.2.2.2.1,
        (set_day_flag_fields now _).2.2.2.2.1, hcp]
    · rw [(set_admin_flag_fields now _).2.2.2.2.2,
        (set_hour_flag_fields now _).2.2.2.2.2,
        (set_day_flag_fields now _).2.2.2.2.2, hcp]
  · intro hpd
    have hcp : complete_if_past now a = a := by
      unfold complete_if_past
      simp [hpd]
    constructor
    · rw [(set_admin_flag_fields now _).2.2.2.2.1,
        (set_hour_flag_fields now _).2.2.2.2.1,
        (set_day_flag_fields now _).2.2.2.2.1, hcp]
    · rw [(set_admin_flag_fields now _).2.2.2.2.2,
        (set_hour_flag_fields now _).2.2.2.2.2,
        (set_day_flag_fields now _).2.2.2.2.2, hcp]

/-- Witness for C6, following the spec scenario: an active appointment at
minute 540 of day 0 (09:00), swept at minute 2040 (10:00 the next day),
ends the cycle completed. -/
theorem C6_sweep_autocomplete_witness :
    ∃ b, (schedule_reminders_cycle
        (create_appointment initialState 7 1 1 540 0).2 2040).appointments[0]?
          = some b ∧
      b.id = Appointment.id ⟨1, 7, 1, 1, 540, Status.active, 0, 0, false, false, false⟩ ∧
      b.time = Appointment.time ⟨1, 7, 1, 1, 540, Status.active, 0, 0, false, false, false⟩ ∧
      b.clientId = Appointment.clientId ⟨1, 7, 1, 1, 540, Status.active, 0, 0, false, false, false⟩ ∧
      b.masterId = Appointment.masterId ⟨1, 7, 1, 1, 540, Status.active, 0, 0, false, false, false⟩ ∧
      (Appointment.status ⟨1, 7, 1, 1, 540, Status.active, 0, 0, false, false, false⟩ = Status.active →
        Appointment.time ⟨1, 7, 1, 1, 540, Status.active, 0, 0, false, false, false⟩ < 2040 →
        b.status = Status.completed ∧ b.updatedAt = 2040) ∧
      (past_due 2040 ⟨1, 7, 1, 1, 540, Status.active, 0, 0, false, false, false⟩ = false →
        b.status = Appointment.status ⟨1, 7, 1, 1, 540, Status.active, 0, 0, false, false, false⟩ ∧
        b.updatedAt = Appointment.updatedAt ⟨1, 7, 1, 1, 540, Status.active, 0, 0, false, false, false⟩) :=
  C6_sweep_autocomplete (create_appointment initialState 7 1 1 540 0).2 2040 0
    ⟨1, 7, 1, 1, 540, Status.active, 0, 0, false, false, false⟩ (by decide)

theorem day_flag_set_after (now : Nat) (a : Appointment)
    (hw : in_day_window now (set_day_flag now a) = true)
    (hact : (set_day_flag now a).status = Status.active) :
    (set_day_flag now a).reminderSentDay = true := by
  by_cases hp : day_pending now a = true
  · unfold set_day_flag
    rw [if_pos hp]
  · simp only [Bool.not_eq_true] at hp
    unfold set_day_flag at hw hact ⊢
    rw [if_neg (by simp [hp])] at hw hact ⊢
    unfold day_pending at hp
    simp [hw, hact] at hp
    exact hp

theorem day_pending_after_set (now : Nat) (a : Appointment) :
    day_pending now (set_day_flag now a) = false := by
  by_cases hp : day_pending now a = true
  · unfold set_day_flag
    rw [if_pos hp]
    unfold day_pending in_day_window at hp ⊢
    simp
  · simp only [Bool.not_eq_true] at hp
    unfold set_day_flag
    rw [if_neg (by simp [hp])]
    exact hp

theorem set_day_flag_idem (now : Nat) (a : Appointment) :
    set_day_flag now (set_day_flag now a) = set_day_flag now a := by
  have h := day_pending_after_set now a
  unfold set_day_flag at h ⊢
  by_cases hp : day_pending now a = true
  · simp only [hp, if_true] at h ⊢
    simp [h]
  · simp only [Bool.not_eq_true] at hp
    simp [hp] at h ⊢

/-- C8: the day-before reminder flag is the idempotency guard of the
sweep: after one day-reminder phase every active in-window appointment
carries the flag, and an immediately repeated phase at the same wall
clock selects no appointment, sends nothing and leaves the state
unchanged — two sweeps send exactly the reminders of one. -/
theorem C8_day_reminder_idempotent (db : DBState) (now : Nat) :
    (∀ b ∈ (day_reminder_step db now).2.appointments,
      in_day_window now b = true → b.status = Status.active →
        b.reminderSentDay = true) ∧
    (day_reminder_step (day_reminder_step db now).2 now).1 = [] ∧
    (day_reminder_step (day_reminder_step db now).2 now).2
      = (day_reminder_step db now).2 := by
  refine ⟨?_, ?_, ?_⟩
  · intro b hb hw hact
    unfold day_reminder_step at hb
    simp only [List.mem_map] at hb
    obtain ⟨a, _, rfl⟩ := hb
    exact day_flag_set_after now a hw hact
  · unfold day_reminder_step
    simp only
    have hnil : (db.appointments.map (set_day_flag now)).filter (day_pending now)
        = [] := by
      rw [List.filter_eq_nil_iff]
      intro b hb
      simp only [List.mem_map] at hb
      obtain ⟨a, _, rfl⟩ := hb
      simp [day_pending_after_set now a]
    rw [hnil]
    rfl
  · unfold day_reminder_step
    simp only [List.map_map]
    congr 1
    apply List.map_congr_left
    intro a _
    exact set_day_flag_idem now a

theorem countP_add_length_filter_not {α : Type} (p : α → Bool) (l : List α) :
    l.countP p + (l.filter (fun a => !p a)).length = l.length := by
  induction l with
  | nil => rfl
  | cons a l ih =>
    rw [List.countP_cons, List.filter_cons]
    by_cases hp : p a = true <;> simp [hp] <;> omega

/-- C9: clear_history deletes exactly the terminal (completed or
cancelled) appointments of the given client and returns their number:
the returned count plus the surviving rows account for the whole table, a
row survives if and only if it is not a terminal row of that client — so
every active row of the client and every row of every other client is
untouched — and the id counter is unchanged. -/
theorem C9_clear_history (db : DBState) (c : Nat) :
    (clear_history db c).1 + (clear_history db c).2.appointments.length
        = db.appointments.length ∧
    (∀ a, a ∈ (clear_history db c).2.appointments ↔
      (a ∈ db.appointments ∧
        ¬(a.clientId = c ∧
          (a.status = Status.completed ∨ a.status = Status.cancelled)))) ∧
    (clear_history db c).2.nextId = db.nextId := by
  refine ⟨?_, ?_, rfl⟩
  · unfold clear_history
    simp only
    have := countP_add_length_filter_not
      (fun a => a.clientId == c &&
        (a.status == Status.completed || a.status == Status.cancelled))
      db.appointments
    convert this using 3
  · intro a
    unfold clear_history
    simp only [List.mem_filter, Bool.not_eq_true']
    constructor
    · rintro ⟨hmem, hkeep⟩
      refine ⟨hmem, ?_⟩
      intro hbad
      simp [hbad.1, hbad.2] at hkeep
      rcases hbad.2 with h | h <;> simp [h] at hkeep
    · rintro ⟨hmem, hkeep⟩
      refine ⟨hmem, ?_⟩
      simp only [Bool.and_eq_false_iff]
      by_cases hc : a.clientId = c
      · right
        have : ¬(a.status = Status.completed ∨ a.status = Status.cancelled) :=
          fun h => hkeep ⟨hc, h⟩
        push_neg at this
        simp [this.1, this.2]
      · left
        simp [hc]

/-- Events of one sweep cycle in source order.  The auto-completion loop
of schedule_reminders (bot.py lines 988-997) processes each fetched
past-due appointment by updating its status, then sleeping 600 seconds
inline (asyncio.sleep(600)) and requesting a review, before touching the
next appointment; only afterwards does the cycle reach the reminder
queries. -/
inductive SweepEvent where
  | completeApp (id : Nat)
  | sleepSec (seconds : Nat)
  | reviewRequest (id : Nat)
  | reminderPhase
deriving DecidableEq, Repr

/-- The event trace of the auto-completion loop of one sweep cycle,
followed by the start of the reminder phase (bot.py lines 975-999). -/
def auto_complete_trace (db : DBState) (now : Nat) : List SweepEvent :=
  ((db.appointments.filter (past_due now)).flatMap
    (fun a => [SweepEvent.completeApp a.id, SweepEvent.sleepSec 600,
      SweepEvent.reviewRequest a.id])) ++ [SweepEvent.reminderPhase]

/-- Seconds of inline sleeping that elapse before the first event
satisfying p is processed. -/
def elapsed_before (p : SweepEvent → Bool) : List SweepEvent → Nat
  | [] => 0
  | e :: es =>
    if p e then 0
    else (match e with | SweepEvent.sleepSec s => s | _ => 0) + elapsed_before p es

/-- A reachable state with two active past-due appointments (ids 1 and 2,
minutes 540 and 600 of day 0, master 1) as seen by a sweep at minute
2040. -/
def twoPastState : DBState :=
  (create_appointment (create_appointment initialState 7 1 1 540 0).2
    8 1 1 600 0).2

/-- C7: the post-completion review delay is an inline sleep in the
sweep's critical path, not an independently scheduled deferred task.
With two past-due appointments, 600 seconds of inline sleeping elapse
before appointment 2 is completed, and 1200 before the reminder phase
runs: the handling of every later appointment and all reminder window
evaluations wait on the earlier appointments' review timers. -/
theorem C7_review_delay_blocks_sweep :
    elapsed_before (fun e => e == SweepEvent.completeApp 1)
      (auto_complete_trace twoPastState 2040) = 0 ∧
    elapsed_before (fun e => e == SweepEvent.completeApp 2)
      (auto_complete_trace twoPastState 2040) = 600 ∧
    elapsed_before (fun e => e == SweepEvent.reminderPhase)
      (auto_complete_trace twoPastState 2040) = 1200 := by
  decide

/-- C10: the stored uniqueness constraint ranges over all statuses, so a
slot that still holds only terminal rows passes the availability check,
yet create_appointment fails on it with an uncaught uniqueness violation
and leaves the database unchanged; once clear_history for the owning
client deletes the terminal rows, the same create succeeds. -/
theorem C10_terminal_row_blocks_rebooking (db : DBState) (t m c0 cs ss now : Nat)
    (hrow : ∃ a ∈ db.appointments,
      a.time = t ∧ a.masterId = m ∧ a.status ≠ Status.active)
    (hnoact : activeSlotCount db t m = 0)
    (hcli : ∀ a ∈ db.appointments, a.time = t → a.masterId = m → a.clientId = c0) :
    is_slot_available db t m = true ∧
    create_appointment db cs ss m t now = (CreateResult.integrityError, db) ∧
    (create_appointment (clear_history db c0).2 cs ss m t now).1
      = CreateResult.created db.nextId := by
  have havail : is_slot_available db t m = true := by
    simp [is_slot_available, hnoact]
  have hocc : 1 ≤ slotCount db t m := by
    obtain ⟨a, ha, h1, h2, _⟩ := hrow
    rw [slotCount]
    refine List.countP_pos_iff.mpr ⟨a, ha, ?_⟩
    simp [h1, h2]
  have hterm : ∀ a ∈ db.appointments, a.time = t → a.masterId = m →
      (a.status = Status.completed ∨ a.status = Status.cancelled) := by
    intro a ha h1 h2
    have hna : a.status ≠ Status.active := by
      rw [activeSlotCount, List.countP_eq_zero] at hnoact
      intro hactive
      exact hnoact a ha (by simp [h1, h2, hactive])
    cases hs : a.status
    · exact absurd hs hna
    · exact Or.inl rfl
    · exact Or.inr rfl
  have hclear : slotCount (clear_history db c0).2 t m = 0 := by
    rw [slotCount, List.countP_eq_zero]
    intro a ha hp
    simp only [Bool.and_eq_true, beq_iff_eq] at hp
    rw [clear_history] at ha
    simp only [List.mem_filter] at ha
    obtain ⟨hmem, hkeep⟩ := ha
    have hcl := hcli a hmem hp.1 hp.2
    have ht := hterm a hmem hp.1 hp.2
    rcases ht with h | h <;> simp [hcl, h] at hkeep
  refine ⟨havail, ?_, ?_⟩
  · unfold create_appointment
    rw [if_pos havail]
    exact insert_of_occupied db cs ss m t now hocc
  · have hava2 : is_slot_available (clear_history db c0).2 t m = true := by
      have hle := activeSlotCount_le_slotCount (clear_history db c0).2 t m
      have h0 : activeSlotCount (clear_history db c0).2 t m = 0 := by omega
      simp [is_slot_available, h0]
    unfold create_appointment
    rw [if_pos hava2, insert_of_vacant _ cs ss m t now hclear]
    rfl

/-- Witness for C10: the reachable state whose only row is client 7's
cancelled booking of slot 1000 of master 1; rebooking by client 8 fails
with the uncaught uniqueness violation until client 7 clears history. -/
theorem C10_terminal_row_blocks_rebooking_witness :
    is_slot_available cancelledSlotState 1000 1 = true ∧
    create_appointment cancelledSlotState 8 1 1 1000 9
      = (CreateResult.integrityError, cancelledSlotState) ∧
    (create_appointment (clear_history cancelledSlotState 7).2 8 1 1 1000 9).1
      = CreateResult.created cancelledSlotState.nextId :=
  C10_terminal_row_blocks_rebooking cancelledSlotState 1000 1 7 8 1 9
    (by decide) (by decide) (by decide)

end MassageBot
